import Mathlib

/-!
Verification development for the `diagram_generator` service.

This file gives a shallow embedding, in Lean 4, of the parts of the
repository that the specification's claims talk about:

* the domain model (`NodeType`, `DiagramNode`, `DiagramConnection`, the
  `Diagram` aggregate) from `diagram_service/domain`,
* the domain service `DiagramGenerationService`
  (`create_diagram_from_specification`, `validate_diagram_specification`),
* the application service `DiagramApplicationService`
  (`create_diagram`, `generate_diagram_from_description`),
* the LLM gateway `GeminiClient` (JSON extraction in
  `generate_diagram_specification`, keyword classification in
  `assistant_chat`, and the pydantic `DiagramRequest` validation).

Python strings are modelled by Lean `String`; `str.strip()` and
`str.lower()` are modelled by `pyStrip`/`pyLower` below (ASCII whitespace
and ASCII case folding, which covers every string the service manipulates).
Timestamps (`datetime.utcnow()`) are modelled by a `Nat` clock value passed
in by the caller, and the generated UUID of `DiagramId.generate()` by a
caller-supplied fresh string.  Python exceptions are modelled by
`Except String` results, the error string being the exception message.
-/

namespace DiagramGen

/-- Model of the ASCII whitespace characters stripped by Python `str.strip()`:
space (32) and the control characters tab, LF, VT, FF, CR (9 to 13). -/
def isSpaceChar (c : Char) : Bool :=
  c.toNat == 32 || (9 ≤ c.toNat && c.toNat ≤ 13)

/-- Model of Python `str.lower()` on a single character (ASCII case folding,
exactly as in `Char.toLower`). -/
def lowerChar (c : Char) : Char :=
  if 65 ≤ c.toNat && c.toNat ≤ 90 then Char.ofNat (c.toNat + 32) else c

/-- Strip whitespace from both ends of a character list. -/
def stripChars (l : List Char) : List Char :=
  ((l.dropWhile isSpaceChar).reverse.dropWhile isSpaceChar).reverse

/-- Model of Python `str.strip()`. -/
def pyStrip (s : String) : String := ⟨stripChars s.data⟩

/-- Model of Python `str.lower()`. -/
def pyLower (s : String) : String := ⟨s.data.map lowerChar⟩

/-!
Domain model: `diagram_service/domain`.

`NodeType`, `DiagramNode`, `DiagramConnection` and the `Diagram` aggregate
are pydantic models; their custom validators run when an instance is
constructed, so construction is modelled by the fallible `mk...` functions
below, and a constructed value always carries the normalized (stripped /
lower-cased) field values.  `Diagram.clusters` is an unvalidated list of
raw dictionaries in the source; the claims never inspect it, and it is
modelled by a list of name/node-id records.
-/

structure NodeType where
  value : String
deriving DecidableEq

structure DiagramNode where
  id : String
  type : NodeType
  label : String
  cluster : Option String
deriving DecidableEq

structure DiagramConnection where
  source : String
  target : String
  label : Option String
deriving DecidableEq

structure ClusterData where
  name : String
  nodes : List String
deriving DecidableEq

structure Diagram where
  id : String
  name : String
  nodes : List DiagramNode
  connections : List DiagramConnection
  clusters : List ClusterData
  created_at : Nat
  updated_at : Nat
deriving DecidableEq

/-- Raw node dictionary as it appears in a specification
(`node_data["id"]`, `node_data["type"]`, `node_data["label"]`,
`node_data.get("cluster")`). -/
structure NodeData where
  id : String
  type : String
  label : String
  cluster : Option String
deriving DecidableEq

/-- Raw connection dictionary as it appears in a specification
(`connection_data["source"]`, `connection_data["target"]`,
`connection_data.get("label")`). -/
structure ConnData where
  source : String
  target : String
  label : Option String
deriving DecidableEq

/-- `NodeType` pydantic validator: reject a type that is empty after
stripping, otherwise store `v.strip().lower()`. -/
def mkNodeType (v : String) : Except String NodeType :=
  if pyStrip v = "" then .error "Node type cannot be empty"
  else .ok ⟨pyLower (pyStrip v)⟩

/-- `DiagramNode` pydantic construction: the `label` field constraints
(`min_length=1`, `max_length=200`) are checked on the raw value, then the
custom validator rejects a label that is blank after stripping and stores
the stripped label.  `id` and `cluster` are stored unvalidated. -/
def mkDiagramNode (i : String) (ty : NodeType) (label : String)
    (cluster : Option String) : Except String DiagramNode :=
  if label.length < 1 ∨ 200 < label.length then .error "label length out of range"
  else if pyStrip label = "" then .error "Node label cannot be empty"
  else .ok ⟨i, ty, pyStrip label, cluster⟩

/-- `DiagramConnection` label validator: `None` stays `None`, a label that is
blank after stripping becomes `None`, otherwise the stripped label is kept. -/
def normConnLabel : Option String → Option String
  | none => none
  | some l => if pyStrip l = "" then none else some (pyStrip l)

/-- `DiagramConnection` pydantic construction: `source` and `target` must be
non-blank after stripping and are stored stripped; the label is normalized
by `normConnLabel`. -/
def mkDiagramConnection (source target : String) (label : Option String) :
    Except String DiagramConnection :=
  if pyStrip source = "" then .error "Node ID cannot be empty"
  else if pyStrip target = "" then .error "Node ID cannot be empty"
  else .ok ⟨pyStrip source, pyStrip target, normConnLabel label⟩

/-- `Diagram` name validator: pydantic `min_length=1`/`max_length=100` on the
raw value, then reject a name that is blank after stripping and store the
stripped name. -/
def mkDiagramName (v : String) : Except String String :=
  if v.length < 1 ∨ 100 < v.length then .error "name length out of range"
  else if pyStrip v = "" then .error "Diagram name cannot be empty"
  else .ok (pyStrip v)

/-- `Diagram.add_node`: raise if a node with the same id already exists,
otherwise append the node and refresh `updated_at`.  The returned diagram is
the state of the aggregate after the call (unchanged when an error is
raised, because the source raises before mutating). -/
def add_node (d : Diagram) (node : DiagramNode) (now : Nat) :
    Diagram × Option String :=
  if d.nodes.any (fun n => n.id = node.id) then
    (d, some "Node with ID already exists")
  else
    ({ d with nodes := d.nodes ++ [node], updated_at := now }, none)

/-- `Diagram.add_connection`: raise unless both endpoints reference existing
node ids and no connection with the same (source, target) pair exists,
otherwise append the connection and refresh `updated_at`. -/
def add_connection (d : Diagram) (c : DiagramConnection) (now : Nat) :
    Diagram × Option String :=
  if ¬ d.nodes.any (fun n => n.id = c.source) then
    (d, some "Source node does not exist")
  else if ¬ d.nodes.any (fun n => n.id = c.target) then
    (d, some "Target node does not exist")
  else if d.connections.any (fun c0 => c0.source = c.source ∧ c0.target = c.target) then
    (d, some "Connection already exists")
  else
    ({ d with connections := d.connections ++ [c], updated_at := now }, none)

/-- `Diagram.is_valid`: the diagram has at least one node and every
connection's endpoints are among the node ids. -/
def is_valid (d : Diagram) : Bool :=
  if d.nodes.isEmpty then false
  else
    d.connections.all (fun c =>
      (d.nodes.map (fun n => n.id)).contains c.source &&
      (d.nodes.map (fun n => n.id)).contains c.target)

/-- The node-construction loop of
`DiagramGenerationService.create_diagram_from_specification`. -/
def addNodesFromData (d : Diagram) (now : Nat) : List NodeData → Except String Diagram
  | [] => .ok d
  | nd :: rest =>
    match mkNodeType nd.type with
    | .error e => .error e
    | .ok ty =>
      match mkDiagramNode nd.id ty nd.label nd.cluster with
      | .error e => .error e
      | .ok n =>
        match add_node d n now with
        | (_, some e) => .error e
        | (d', none) => addNodesFromData d' now rest

/-- The connection-construction loop of
`DiagramGenerationService.create_diagram_from_specification`. -/
def addConnsFromData (d : Diagram) (now : Nat) : List ConnData → Except String Diagram
  | [] => .ok d
  | cd :: rest =>
    match mkDiagramConnection cd.source cd.target cd.label with
    | .error e => .error e
    | .ok c =>
      match add_connection d c now with
      | (_, some e) => .error e
      | (d', none) => addConnsFromData d' now rest

/-- `DiagramGenerationService.create_diagram_from_specification`: build an
empty aggregate (with a freshly generated id, modelled by the
caller-supplied UUID string `did`, and the current time `now`), then add
every node and every connection in declaration order.  Any validator or
aggregate error aborts the construction. -/
def create_diagram_from_specification (did : String) (now : Nat) (name : String)
    (nodes : List NodeData) (connections : List ConnData)
    (clusters : List ClusterData) : Except String Diagram :=
  match mkDiagramName name with
  | .error e => .error e
  | .ok nm =>
    match addNodesFromData
        { id := did, name := nm, nodes := [], connections := [],
          clusters := clusters, created_at := now, updated_at := now } now nodes with
    | .error e => .error e
    | .ok d1 => addConnsFromData d1 now connections

/-- `DiagramGenerationService.validate_diagram_specification`: reject an
empty node list, a node list with duplicate ids (compared via the length of
the de-duplicated id list, as Python's `len(set(...))` does), or any
connection whose raw source or target is not among the raw node ids. -/
def validate_diagram_specification (nodes : List NodeData)
    (connections : List ConnData) : Bool :=
  if nodes.isEmpty then false
  else
    let node_ids := nodes.map (fun n => n.id)
    if node_ids.length ≠ node_ids.dedup.length then false
    else
      connections.all (fun c =>
        node_ids.contains c.source && node_ids.contains c.target)

/-- The command payload of `DiagramApplicationService.create_diagram`. -/
structure CreateDiagramCommand where
  name : String
  nodes : List NodeData
  connections : List ConnData
  clusters : List ClusterData
deriving DecidableEq

/-- `DiagramApplicationService.create_diagram`: validate the caller-supplied
specification, raising `ValueError("Invalid diagram specification")` when
validation fails, then build the aggregate.  Saving to the in-memory
repository cannot fail and is not modelled. -/
def create_diagram (did : String) (now : Nat) (cmd : CreateDiagramCommand) :
    Except String Diagram :=
  if ¬ validate_diagram_specification cmd.nodes cmd.connections then
    .error "Invalid diagram specification"
  else
    create_diagram_from_specification did now cmd.name cmd.nodes cmd.connections
      cmd.clusters

/-!
LLM gateway: `diagram_service/llm/gemini_client.py`.

The hosted model is a black box; where a definition needs the model's
reply it takes it (or a reply function) as an argument.  The prompt
templates are deterministic string templating whose text the claims never
inspect, so a prompt is modelled by a constructor recording which template
was instantiated with which arguments.
-/

/-- First index of a character in a list, or `none` (Python `str.find`). -/
def firstIdx? : List Char → Char → Option Nat
  | [], _ => none
  | a :: as, c => if a = c then some 0 else (firstIdx? as c).map (fun i => i + 1)

/-- Last index of a character in a list, or `none` (Python `str.rfind`). -/
def lastIdx? (l : List Char) (c : Char) : Option Nat :=
  (firstIdx? l.reverse c).map (fun i => l.length - 1 - i)

/-- Python `str.find` for a single character: index of the first occurrence
or `-1`. -/
def pyFind (s : String) (c : Char) : Int :=
  match firstIdx? s.data c with
  | some i => (i : Int)
  | none => -1

/-- Python `str.rfind` for a single character: index of the last occurrence
or `-1`. -/
def pyRfind (s : String) (c : Char) : Int :=
  match lastIdx? s.data c with
  | some i => (i : Int)
  | none => -1

/-- Python slice `s[a:b]` for non-negative bounds. -/
def pySlice (s : String) (a b : Nat) : String := ⟨(s.data.take b).drop a⟩

/-- The JSON-extraction step of `GeminiClient.generate_diagram_specification`:
`json_start = text.find(h)` and `json_end = text.rfind(t) + 1` for the brace
characters; raise `ValueError("No valid JSON found in response")` when
`json_start == -1 or json_end == 0`, otherwise return
`text[json_start:json_end]`. -/
def extract_json (response_text : String) : Except String String :=
  let json_start : Int := pyFind response_text '\x7b'
  let json_end : Int := pyRfind response_text '\x7d' + 1
  if json_start = -1 ∨ json_end = 0 then
    .error "No valid JSON found in response"
  else
    .ok (pySlice response_text json_start.toNat json_end.toNat)

/-- A prompt sent to the model: either the diagram-generation template or the
assistant template, instantiated with the user text and the supported node
types.  The template text itself is opaque to every claim. -/
inductive Prompt where
  | generation (description : String) (node_types : List String)
  | assistant (message : String) (node_types : List String)
deriving DecidableEq

/-- `GeminiClient._build_diagram_generation_prompt`. -/
def build_diagram_generation_prompt (description : String)
    (node_types : List String) : Prompt :=
  .generation description node_types

/-- `GeminiClient._build_assistant_prompt`. -/
def build_assistant_prompt (message : String) (node_types : List String) : Prompt :=
  .assistant message node_types

/-- The fixed keyword list of `GeminiClient.assistant_chat`. -/
def diagram_keywords : List String :=
  ["diagram", "create", "generate", "show", "draw", "build", "architecture"]

/-- Python `needle in haystack` substring containment. -/
def containsSub (haystack needle : String) : Bool :=
  decide (needle.data <:+: haystack.data)

/-- The classification step of `GeminiClient.assistant_chat`: lower-case the
message and test each keyword for substring containment. -/
def is_diagram_request (user_message : String) : Bool :=
  diagram_keywords.any (fun keyword => containsSub (pyLower user_message) keyword)

/-- `GeminiClient.assistant_chat`: choose the generation prompt when the
message is classified as a diagram request and the assistant prompt
otherwise, send it to the model (`send` is the black-box reply of
`generate_content_async`), and return `str(response.text.strip())`. -/
def assistant_chat (send : Prompt → String) (user_message : String)
    (supported_node_types : List String) : String :=
  let prompt :=
    if is_diagram_request user_message then
      build_diagram_generation_prompt user_message supported_node_types
    else
      build_assistant_prompt user_message supported_node_types
  pyStrip (send prompt)

/-- A JSON value, as produced by `json.loads` on the extracted span. -/
inductive Json where
  | null
  | bool (b : Bool)
  | num (n : Int)
  | str (s : String)
  | arr (elems : List Json)
  | obj (fields : List (String × Json))

/-- Lookup of a key in a JSON object (keys of a parsed object are unique). -/
def jsonLookup : List (String × Json) → String → Option Json
  | [], _ => none
  | (k, v) :: rest, key => if k = key then some v else jsonLookup rest key

/-- Interpret a list of JSON values as a list of dictionaries
(`List[Dict[str, Any]]`), failing if any element is not an object. -/
def asObjList : List Json → Option (List (List (String × Json)))
  | [] => some []
  | .obj f :: rest => (asObjList rest).map (fun l => f :: l)
  | _ => none

/-- The pydantic model `DiagramRequest` of `gemini_client.py`: `name` a
string, `nodes` and `connections` lists of dictionaries, `clusters` an
optional list of dictionaries.  No constraint on the contents is imposed:
in particular an empty `nodes` list is accepted. -/
structure DiagramRequest where
  name : String
  nodes : List (List (String × Json))
  connections : List (List (String × Json))
  clusters : Option (List (List (String × Json)))

/-- Validation of a parsed JSON value into a `DiagramRequest`
(`DiagramRequest(**diagram_data)`). -/
def mkDiagramRequest (j : Json) : Except String DiagramRequest :=
  match j with
  | .obj fields =>
    match jsonLookup fields "name" with
    | some (.str nm) =>
      match jsonLookup fields "nodes" with
      | some (.arr ns) =>
        match asObjList ns with
        | some nodeDicts =>
          match jsonLookup fields "connections" with
          | some (.arr cs) =>
            match asObjList cs with
            | some connDicts =>
              match jsonLookup fields "clusters" with
              | none => .ok ⟨nm, nodeDicts, connDicts, none⟩
              | some .null => .ok ⟨nm, nodeDicts, connDicts, none⟩
              | some (.arr ks) =>
                match asObjList ks with
                | some clusterDicts => .ok ⟨nm, nodeDicts, connDicts, some clusterDicts⟩
                | none => .error "validation error for DiagramRequest"
              | some _ => .error "validation error for DiagramRequest"
            | none => .error "validation error for DiagramRequest"
          | _ => .error "validation error for DiagramRequest"
        | none => .error "validation error for DiagramRequest"
      | _ => .error "validation error for DiagramRequest"
    | _ => .error "validation error for DiagramRequest"
  | _ => .error "validation error for DiagramRequest"

/-!
Orchestrator: `DiagramApplicationService.generate_diagram_from_description`
(`diagram_service/application/services/diagram_application_service.py`).

The method selects one of three hard-coded specifications by keyword
matching on the lower-cased description, builds and saves the aggregate,
then attempts a render; a rendering exception is caught and logged and the
response keeps an empty image path.  The rendering service is modelled as
an optional black-box function from the chosen specification to either an
image path or an exception message.
-/

/-- A raw specification dictionary (`diagram_spec` in the source): the three
hard-coded dictionaries carry `name`, `nodes` and `connections` keys and no
`clusters` key. -/
structure RawSpec where
  name : String
  nodes : List NodeData
  connections : List ConnData
deriving DecidableEq

/-- The hard-coded "EC2 + RDS Architecture" specification. -/
def ec2RdsSpec : RawSpec :=
  { name := "EC2 + RDS Architecture"
    nodes :=
      [ ⟨"internet", "aws_internet_gateway", "Internet Gateway", none⟩,
        ⟨"vpc", "aws_vpc", "VPC", none⟩,
        ⟨"subnet", "aws_subnet", "Public Subnet", none⟩,
        ⟨"ec2", "aws_ec2", "EC2 Instance", none⟩,
        ⟨"rds", "aws_rds", "RDS Database", none⟩,
        ⟨"security_group", "aws_security_group", "Security Group", none⟩ ]
    connections :=
      [ ⟨"internet", "vpc", some "Internet Access"⟩,
        ⟨"vpc", "subnet", some "Contains"⟩,
        ⟨"subnet", "ec2", some "Hosts"⟩,
        ⟨"ec2", "rds", some "Database Connection"⟩,
        ⟨"security_group", "ec2", some "Protects"⟩,
        ⟨"security_group", "rds", some "Protects"⟩ ] }

/-- The hard-coded "FastAPI + SQS Architecture" specification. -/
def fastapiSqsSpec : RawSpec :=
  { name := "FastAPI + SQS Architecture"
    nodes :=
      [ ⟨"api_gateway", "aws_api_gateway", "API Gateway", none⟩,
        ⟨"fastapi", "aws_lambda", "FastAPI Lambda", none⟩,
        ⟨"sqs", "aws_sqs", "SQS Queue", none⟩,
        ⟨"worker", "aws_lambda", "Worker Lambda", none⟩,
        ⟨"dynamodb", "aws_dynamodb", "DynamoDB", none⟩ ]
    connections :=
      [ ⟨"api_gateway", "fastapi", some "HTTP"⟩,
        ⟨"fastapi", "sqs", some "Send Message"⟩,
        ⟨"sqs", "worker", some "Trigger"⟩,
        ⟨"worker", "dynamodb", some "Write"⟩ ] }

/-- The hard-coded default "AWS Architecture" specification. -/
def defaultSpec : RawSpec :=
  { name := "AWS Architecture"
    nodes :=
      [ ⟨"vpc", "aws_vpc", "VPC", none⟩,
        ⟨"ec2", "aws_ec2", "EC2 Instance", none⟩,
        ⟨"rds", "aws_rds", "RDS Database", none⟩ ]
    connections :=
      [ ⟨"vpc", "ec2", some "Contains"⟩,
        ⟨"ec2", "rds", some "Connects"⟩ ] }

/-- The specification-selection branch of
`generate_diagram_from_description`. -/
def chooseSpec (description : String) : RawSpec :=
  let dl := pyLower description
  if containsSub dl "ec2" && containsSub dl "rds" then ec2RdsSpec
  else if containsSub dl "fastapi" && containsSub dl "sqs" then fastapiSqsSpec
  else defaultSpec

/-- `GenerateDiagramFromDescriptionResponse` DTO; `specification` is a raw
dictionary, `none` modelling the empty dictionary of the failure branch. -/
structure GenerateResponse where
  success : Bool
  diagram_id : Option String
  image_path : String
  specification : Option RawSpec
  message : String
  error : Option String
deriving DecidableEq

/-- `DiagramApplicationService.generate_diagram_from_description`: choose the
hard-coded specification, build the aggregate (clusters omitted), save it,
then attempt a render when a rendering service is configured; a rendering
error is swallowed, leaving the image path empty.  Any other exception
yields the `success=False` response. -/
def generate_diagram_from_description
    (rendering_service : Option (RawSpec → Except String String))
    (did : String) (now : Nat) (description : String) : GenerateResponse :=
  let spec := chooseSpec description
  match create_diagram_from_specification did now spec.name spec.nodes
      spec.connections [] with
  | .error e =>
    { success := false, diagram_id := none, image_path := "",
      specification := none, message := "Failed to generate diagram",
      error := some e }
  | .ok d =>
    let image_path :=
      match rendering_service with
      | none => ""
      | some render =>
        match render spec with
        | .ok p => p
        | .error _ => ""
    { success := true, diagram_id := some d.id, image_path := image_path,
      specification := some spec,
      message := spec.name ++ " diagram generated successfully",
      error := none }

/-!
Helper notions for reasoning about the specification builder.
-/

/-- The normalized node produced from a raw node dictionary when every
validator passes. -/
def nodeOf (nd : NodeData) : DiagramNode :=
  ⟨nd.id, ⟨pyLower (pyStrip nd.type)⟩, pyStrip nd.label, nd.cluster⟩

/-- The normalized connection produced from a raw connection dictionary when
every validator passes. -/
def connOf (cd : ConnData) : DiagramConnection :=
  ⟨pyStrip cd.source, pyStrip cd.target, normConnLabel cd.label⟩

/-- Conditions under which the node validators accept a raw node
dictionary. -/
def nodeOk (nd : NodeData) : Prop :=
  pyStrip nd.type ≠ "" ∧ 1 ≤ nd.label.length ∧ nd.label.length ≤ 200 ∧
    pyStrip nd.label ≠ ""

/-- Conditions under which the connection validators accept a raw connection
dictionary. -/
def connOk (cd : ConnData) : Prop :=
  pyStrip cd.source ≠ "" ∧ pyStrip cd.target ≠ ""

instance (nd : NodeData) : Decidable (nodeOk nd) := by
  unfold nodeOk
  infer_instance

instance (cd : ConnData) : Decidable (connOk cd) := by
  unfold connOk
  infer_instance

/-- The (source, target) pair of a connection. -/
def connPair (c : DiagramConnection) : String × String := (c.source, c.target)

/-- Node serialization, as the read queries build the node dictionaries:
`{"id": node.id, "type": str(node.type), "label": node.label,
"cluster": node.cluster}`. -/
def serializeNode (n : DiagramNode) : NodeData :=
  ⟨n.id, n.type.value, n.label, n.cluster⟩

/-- Connection serialization, as the read queries build the connection
dictionaries: `{"source": conn.source, "target": conn.target,
"label": conn.label}`. -/
def serializeConn (c : DiagramConnection) : ConnData :=
  ⟨c.source, c.target, c.label⟩

/-!
Aggregate invariant and mutation sequences (for the invariant claims).
-/

/-- The aggregate invariant: node ids are pairwise distinct, every
connection's endpoints are declared node ids, and no two connections share
the same (source, target) pair. -/
def diagramInv (d : Diagram) : Prop :=
  (d.nodes.map DiagramNode.id).Nodup ∧
  (∀ c ∈ d.connections, c.source ∈ d.nodes.map DiagramNode.id ∧
    c.target ∈ d.nodes.map DiagramNode.id) ∧
  (d.connections.map connPair).Nodup

/-- A mutation of the aggregate: one `add_node` or `add_connection` call,
with the clock value observed during the call. -/
inductive DiagramOp where
  | addN (n : DiagramNode) (now : Nat)
  | addC (c : DiagramConnection) (now : Nat)

/-- Apply one mutation; the first component is the aggregate state after the
call (unchanged if the call raised). -/
def applyOp (d : Diagram) : DiagramOp → Diagram × Option String
  | .addN n now => add_node d n now
  | .addC c now => add_connection d c now

/-- Run a sequence of mutations, keeping the state reached so far when a
call raises. -/
def runOps (d : Diagram) (ops : List DiagramOp) : Diagram :=
  ops.foldl (fun acc op => (applyOp acc op).1) d

/-- Well-formedness of a node/connection list in the spec's sense (the notion
quantified over by the spec's first testable property): non-empty nodes,
unique node ids, and every connection's source and target among the declared
node ids. -/
def specWellFormed (nodes : List NodeData) (connections : List ConnData) : Prop :=
  nodes ≠ [] ∧ (nodes.map NodeData.id).Nodup ∧
  ∀ cd ∈ connections, cd.source ∈ nodes.map NodeData.id ∧
    cd.target ∈ nodes.map NodeData.id

/-- Case-insensitive substring containment, the classification relation the
spec describes for the chat keyword heuristic. -/
def caseInsensitiveContains (haystack needle : String) : Bool :=
  containsSub (pyLower haystack) (pyLower needle)

/-!
Proof development: lemmas about the embedding, followed by the claim
theorems.
-/

theorem toNat_ofNat_small (n : Nat) (h : n < 55296) : (Char.ofNat n).toNat = n := by
  have hv : n.isValidChar := Or.inl h
  simp [Char.ofNat, hv, Char.ofNatAux, Char.toNat, UInt32.toNat]

theorem lowerChar_toNat_of_upper (c : Char) (h : 65 ≤ c.toNat ∧ c.toNat ≤ 90) :
    (lowerChar c).toNat = c.toNat + 32 := by
  have hb : (65 ≤ c.toNat && c.toNat ≤ 90) = true := by
    simp [h.1, h.2]
  simp only [lowerChar, hb, if_true]
  exact toNat_ofNat_small _ (by omega)

theorem lowerChar_eq_self_of_not_upper (c : Char) (h : ¬(65 ≤ c.toNat ∧ c.toNat ≤ 90)) :
    lowerChar c = c := by
  have hb : (65 ≤ c.toNat && c.toNat ≤ 90) = false := by
    rcases Decidable.not_and_iff_or_not.mp h with h1 | h1 <;> simp [h1]
  simp [lowerChar, hb]

theorem isSpaceChar_lowerChar (c : Char) : isSpaceChar (lowerChar c) = isSpaceChar c := by
  by_cases h : 65 ≤ c.toNat ∧ c.toNat ≤ 90
  · have h1 : (lowerChar c).toNat = c.toNat + 32 := lowerChar_toNat_of_upper c h
    have hL : isSpaceChar (lowerChar c) = false := by
      apply Bool.eq_false_iff.mpr
      intro hcontra
      simp [isSpaceChar, h1] at hcontra
      omega
    have hR : isSpaceChar c = false := by
      apply Bool.eq_false_iff.mpr
      intro hcontra
      simp [isSpaceChar] at hcontra
      omega
    rw [hL, hR]
  · rw [lowerChar_eq_self_of_not_upper c h]

theorem lowerChar_lowerChar (c : Char) : lowerChar (lowerChar c) = lowerChar c := by
  by_cases h : 65 ≤ c.toNat ∧ c.toNat ≤ 90
  · refine lowerChar_eq_self_of_not_upper _ ?_
    rw [lowerChar_toNat_of_upper c h]
    omega
  · rw [lowerChar_eq_self_of_not_upper c h, lowerChar_eq_self_of_not_upper c h]

theorem dropWhile_dropWhile (p : α → Bool) (l : List α) :
    (l.dropWhile p).dropWhile p = l.dropWhile p := by
  induction l with
  | nil => rfl
  | cons x xs ih =>
    by_cases h : p x
    · simpa [List.dropWhile_cons, h] using ih
    · simp [List.dropWhile_cons, h]

theorem head_dropWhile_false (p : α → Bool) (l : List α) (x : α) (xs : List α)
    (h : l.dropWhile p = x :: xs) : p x = false := by
  have := List.head?_dropWhile_not p l
  rw [h] at this
  simpa using this

/-- `stripChars` is idempotent. -/
theorem stripChars_stripChars (l : List Char) : stripChars (stripChars l) = stripChars l := by
  set p := isSpaceChar with hp
  unfold stripChars
  set A := l.dropWhile p with hA
  -- the front of `A` is either empty or fails `p`
  have hAhead : ∀ x xs, A = x :: xs → p x = false := fun x xs h =>
    head_dropWhile_false p l x xs (hA ▸ h)
  set B := (A.reverse.dropWhile p).reverse with hB
  -- front-stripping `B` is the identity
  have hBdrop : B.dropWhile p = B := by
    cases hA' : A with
    | nil => simp [hB, hA']
    | cons x xs =>
      have hx : p x = false := hAhead x xs hA'
      rw [hB, hA']
      cases hxs : (xs.reverse.dropWhile p) with
      | nil =>
        have : (x :: xs).reverse.dropWhile p = [x].dropWhile p := by
          simp only [List.reverse_cons]
          rw [List.dropWhile_append]
          simp [hxs]
        rw [this]
        simp [List.dropWhile_cons, hx]
      | cons y ys =>
        have : (x :: xs).reverse.dropWhile p = xs.reverse.dropWhile p ++ [x] := by
          simp only [List.reverse_cons]
          rw [List.dropWhile_append]
          simp [hxs]
        rw [this, hxs]
        simp [List.dropWhile_cons, hx]
  rw [hBdrop]
  have : B.reverse.dropWhile p = B.reverse := by
    rw [hB]
    simp only [List.reverse_reverse]
    exact dropWhile_dropWhile p A.reverse
  rw [this]
  simp [hB]

/-- `stripChars` commutes with ASCII lowering. -/
theorem stripChars_map_lowerChar (l : List Char) :
    stripChars (l.map lowerChar) = (stripChars l).map lowerChar := by
  have hcomp : (fun c => isSpaceChar (lowerChar c)) = isSpaceChar := by
    funext c; exact isSpaceChar_lowerChar c
  unfold stripChars
  rw [List.dropWhile_map]
  have h1 : (l.dropWhile (isSpaceChar ∘ lowerChar)) = l.dropWhile isSpaceChar := by
    have : (isSpaceChar ∘ lowerChar) = isSpaceChar := by
      funext c; exact isSpaceChar_lowerChar c
    rw [this]
  rw [h1, ← List.map_reverse, List.dropWhile_map]
  have h2 : ((l.dropWhile isSpaceChar).reverse.dropWhile (isSpaceChar ∘ lowerChar))
      = (l.dropWhile isSpaceChar).reverse.dropWhile isSpaceChar := by
    have : (isSpaceChar ∘ lowerChar) = isSpaceChar := by
      funext c; exact isSpaceChar_lowerChar c
    rw [this]
  rw [h2, ← List.map_reverse]

theorem length_dropWhile_le (p : α → Bool) (l : List α) :
    (l.dropWhile p).length ≤ l.length :=
  (List.dropWhile_sublist p).length_le

theorem length_stripChars_le (l : List Char) : (stripChars l).length ≤ l.length := by
  unfold stripChars
  calc ((l.dropWhile isSpaceChar).reverse.dropWhile isSpaceChar).reverse.length
      = ((l.dropWhile isSpaceChar).reverse.dropWhile isSpaceChar).length := by
        simp
    _ ≤ (l.dropWhile isSpaceChar).reverse.length := length_dropWhile_le _ _
    _ = (l.dropWhile isSpaceChar).length := by simp
    _ ≤ l.length := length_dropWhile_le _ _

theorem pyStrip_pyStrip (s : String) : pyStrip (pyStrip s) = pyStrip s :=
  congrArg String.mk (stripChars_stripChars s.data)

theorem pyStrip_pyLower (s : String) : pyStrip (pyLower s) = pyLower (pyStrip s) :=
  congrArg String.mk (stripChars_map_lowerChar s.data)

theorem pyLower_pyLower (s : String) : pyLower (pyLower s) = pyLower s := by
  have h : (s.data.map lowerChar).map lowerChar = s.data.map lowerChar := by
    rw [List.map_map]
    apply List.map_congr_left
    intro c _
    exact lowerChar_lowerChar c
  exact congrArg String.mk h

theorem length_pyStrip_le (s : String) : (pyStrip s).length ≤ s.length :=
  length_stripChars_le s.data

theorem pyLower_eq_empty_iff (s : String) : pyLower s = "" ↔ s = "" := by
  constructor
  · intro h
    have hd : (pyLower s).data = [] := by rw [h]
    simp only [pyLower] at hd
    have : s.data = [] := List.map_eq_nil_iff.mp hd
    cases s; simp_all
  · intro h; subst h; rfl

theorem length_pos_of_ne_empty (s : String) (h : s ≠ "") : 1 ≤ s.length := by
  cases hcase : s.data with
  | nil =>
    exfalso
    apply h
    cases s; simp_all
  | cons x xs =>
    have : s.length = s.data.length := rfl
    rw [this, hcase]
    simp

theorem mkNodeType_ok (v : String) (h : pyStrip v ≠ "") :
    mkNodeType v = .ok ⟨pyLower (pyStrip v)⟩ := by
  simp [mkNodeType, h]

theorem mkDiagramNode_ok (nd : NodeData) (h : nodeOk nd) :
    mkDiagramNode nd.id ⟨pyLower (pyStrip nd.type)⟩ nd.label nd.cluster
      = .ok (nodeOf nd) := by
  obtain ⟨-, h1, h2, h3⟩ := h
  have hlen : ¬ (nd.label.length < 1 ∨ 200 < nd.label.length) := by omega
  simp only [mkDiagramNode, if_neg hlen, if_neg h3]
  rfl

theorem mkDiagramConnection_ok (cd : ConnData) (h : connOk cd) :
    mkDiagramConnection cd.source cd.target cd.label = .ok (connOf cd) := by
  obtain ⟨h1, h2⟩ := h
  simp [mkDiagramConnection, h1, h2, connOf]

theorem addNodesFromData_ok (t : Nat) :
    ∀ (nds : List NodeData) (d : Diagram),
      (∀ nd ∈ nds, nodeOk nd) →
      (∀ nd ∈ nds, ∀ m ∈ d.nodes, m.id ≠ nd.id) →
      (nds.map NodeData.id).Nodup →
      ∃ d', addNodesFromData d t nds = .ok d' ∧
        d'.nodes = d.nodes ++ nds.map nodeOf ∧
        d'.connections = d.connections ∧ d'.id = d.id ∧ d'.name = d.name ∧
        d'.clusters = d.clusters := by
  intro nds
  induction nds with
  | nil =>
    intro d _ _ _
    exact ⟨d, rfl, by simp, rfl, rfl, rfl, rfl⟩
  | cons nd rest ih =>
    intro d hok hfresh hnodup
    have hndOk : nodeOk nd := hok nd (by simp)
    have hty := mkNodeType_ok nd.type hndOk.1
    have hnode := mkDiagramNode_ok nd hndOk
    have hany : d.nodes.any (fun n => n.id = (nodeOf nd).id) = false := by
      apply List.any_eq_false.mpr
      intro m hm
      simpa using hfresh nd (by simp) m hm
    have hid : (nodeOf nd).id = nd.id := rfl
    set d1 : Diagram :=
      { d with nodes := d.nodes ++ [nodeOf nd], updated_at := t } with hd1
    have hrest : ∀ nd' ∈ rest, ∀ m ∈ d1.nodes, m.id ≠ nd'.id := by
      intro nd' hnd' m hm
      rw [hd1] at hm
      simp only [List.mem_append, List.mem_singleton] at hm
      rcases hm with hm | hm
      · exact hfresh nd' (by simp [hnd']) m hm
      · subst hm
        rw [hid]
        have : nd.id ∉ rest.map NodeData.id := by
          have := hnodup
          simp only [List.map_cons, List.nodup_cons] at this
          exact this.1
        intro hcontra
        exact this (hcontra ▸ List.mem_map_of_mem NodeData.id hnd')
    have hnodup' : (rest.map NodeData.id).Nodup := by
      simp only [List.map_cons, List.nodup_cons] at hnodup
      exact hnodup.2
    obtain ⟨d', hrun, hn, hc, hi, hnm, hcl⟩ :=
      ih d1 (fun x hx => hok x (by simp [hx])) hrest hnodup'
    refine ⟨d', ?_, ?_, ?_, ?_, ?_, ?_⟩
    · simp only [addNodesFromData, hty, hnode, add_node, hany,
        Bool.false_eq_true, if_false]
      exact hrun
    · rw [hn, hd1]
      simp
    · rw [hc]
    · rw [hi]
    · rw [hnm]
    · rw [hcl]

theorem addNodesFromData_shape (t : Nat) :
    ∀ (nds : List NodeData) (d d' : Diagram),
      addNodesFromData d t nds = .ok d' →
      d'.nodes = d.nodes ++ nds.map nodeOf ∧
      d'.connections = d.connections ∧ d'.id = d.id ∧ d'.name = d.name ∧
      d'.clusters = d.clusters ∧
      (∀ nd ∈ nds, nodeOk nd) ∧
      ((d.nodes.map DiagramNode.id).Nodup → (d'.nodes.map DiagramNode.id).Nodup) := by
  intro nds
  induction nds with
  | nil =>
    intro d d' h
    have : d = d' := by simpa [addNodesFromData] using h
    subst this
    exact ⟨by simp, rfl, rfl, rfl, rfl, by simp, fun h => h⟩
  | cons nd rest ih =>
    intro d d' h
    simp only [addNodesFromData] at h
    -- the type validator must have succeeded
    cases hty : mkNodeType nd.type with
    | error e => simp [hty] at h
    | ok ty =>
      simp only [hty] at h
      cases hnode : mkDiagramNode nd.id ty nd.label nd.cluster with
      | error e => simp [hnode] at h
      | ok n =>
        simp only [hnode] at h
        -- the duplicate-id check must have passed
        cases hany : d.nodes.any (fun m => m.id = n.id) with
        | true => simp [add_node, hany] at h
        | false =>
          simp only [add_node, hany, Bool.false_eq_true, if_false] at h
          -- identify the constructed node
          have hstrip : pyStrip nd.type ≠ "" := by
            by_contra hcontra
            simp [mkNodeType, hcontra] at hty
          have hty' : ty = ⟨pyLower (pyStrip nd.type)⟩ := by
            rw [mkNodeType_ok nd.type hstrip] at hty
            cases hty
            rfl
          have hlab1 : ¬ (nd.label.length < 1 ∨ 200 < nd.label.length) := by
            intro hcontra
            simp only [mkDiagramNode, if_pos hcontra] at hnode
            cases hnode
          have hlab2 : pyStrip nd.label ≠ "" := by
            intro hcontra
            simp only [mkDiagramNode, hcontra] at hnode
            split at hnode <;> simp at hnode
          have hn' : n = nodeOf nd := by
            rw [hty'] at hnode
            rw [mkDiagramNode_ok nd ⟨hstrip, by omega, by omega, hlab2⟩] at hnode
            cases hnode
            rfl
          obtain ⟨hnodes, hconns, hid, hname, hcl, hok, hnodup⟩ :=
            ih { d with nodes := d.nodes ++ [n], updated_at := t } d' h
          subst hn'
          refine ⟨?_, hconns, hid, hname, hcl, ?_, ?_⟩
          · rw [hnodes]; simp
          · intro x hx
            simp only [List.mem_cons] at hx
            rcases hx with hx | hx
            · subst hx
              exact ⟨hstrip, by omega, by omega, hlab2⟩
            · exact hok x hx
          · intro hd
            apply hnodup
            simp only [List.map_append, List.map_cons, List.map_nil]
            rw [List.nodup_append]
            refine ⟨hd, by simp, ?_⟩
            intro a ha
            simp only [List.mem_singleton]
            intro hb
            subst hb
            simp only [List.mem_map] at ha
            obtain ⟨m, hm, hma⟩ := ha
            have := List.any_eq_false.mp hany m hm
            simp only [decide_eq_true_eq] at this
            exact this hma

theorem addConnsFromData_ok (t : Nat) :
    ∀ (cds : List ConnData) (d : Diagram),
      (∀ cd ∈ cds, connOk cd) →
      (∀ cd ∈ cds, d.nodes.any (fun n => n.id = pyStrip cd.source) = true ∧
        d.nodes.any (fun n => n.id = pyStrip cd.target) = true) →
      (∀ cd ∈ cds, ∀ c0 ∈ d.connections,
        ¬(c0.source = pyStrip cd.source ∧ c0.target = pyStrip cd.target)) →
      (cds.map (fun cd => (pyStrip cd.source, pyStrip cd.target))).Nodup →
      ∃ d', addConnsFromData d t cds = .ok d' ∧
        d'.connections = d.connections ++ cds.map connOf ∧
        d'.nodes = d.nodes ∧ d'.id = d.id ∧ d'.name = d.name ∧
        d'.clusters = d.clusters := by
  intro cds
  induction cds with
  | nil =>
    intro d _ _ _ _
    exact ⟨d, rfl, by simp, rfl, rfl, rfl, rfl⟩
  | cons cd rest ih =>
    intro d hok hends hfresh hnodup
    have hcdOk : connOk cd := hok cd (by simp)
    have hconn := mkDiagramConnection_ok cd hcdOk
    have hsrc : d.nodes.any (fun n => n.id = (connOf cd).source) = true :=
      (hends cd (by simp)).1
    have htgt : d.nodes.any (fun n => n.id = (connOf cd).target) = true :=
      (hends cd (by simp)).2
    have hdup : d.connections.any
        (fun c0 => c0.source = (connOf cd).source ∧ c0.target = (connOf cd).target)
          = false := by
      apply List.any_eq_false.mpr
      intro c0 hc0
      simpa using hfresh cd (by simp) c0 hc0
    set d1 : Diagram :=
      { d with connections := d.connections ++ [connOf cd], updated_at := t } with hd1
    have hrest1 : ∀ c ∈ rest, d1.nodes.any (fun n => n.id = pyStrip c.source) = true ∧
        d1.nodes.any (fun n => n.id = pyStrip c.target) = true := by
      intro c hc
      exact hends c (by simp [hc])
    have hrest2 : ∀ c ∈ rest, ∀ c0 ∈ d1.connections,
        ¬(c0.source = pyStrip c.source ∧ c0.target = pyStrip c.target) := by
      intro c hc c0 hc0
      rw [hd1] at hc0
      simp only [List.mem_append, List.mem_singleton] at hc0
      rcases hc0 with hc0 | hc0
      · exact hfresh c (by simp [hc]) c0 hc0
      · subst hc0
        intro hcontra
        have hpair : (pyStrip cd.source, pyStrip cd.target)
            ∉ rest.map (fun x => (pyStrip x.source, pyStrip x.target)) := by
          simp only [List.map_cons, List.nodup_cons] at hnodup
          exact hnodup.1
        apply hpair
        have : (pyStrip cd.source, pyStrip cd.target)
            = (pyStrip c.source, pyStrip c.target) := by
          simp only [connOf] at hcontra
          rw [Prod.mk.injEq]
          exact ⟨hcontra.1, hcontra.2⟩
        rw [this]
        exact List.mem_map_of_mem _ hc
    have hnodup' : (rest.map (fun x => (pyStrip x.source, pyStrip x.target))).Nodup := by
      simp only [List.map_cons, List.nodup_cons] at hnodup
      exact hnodup.2
    obtain ⟨d', hrun, hc, hn, hi, hnm, hcl⟩ :=
      ih d1 (fun x hx => hok x (by simp [hx])) hrest1 hrest2 hnodup'
    refine ⟨d', ?_, ?_, ?_, ?_, ?_, ?_⟩
    · simp only [addConnsFromData, hconn, add_connection, hsrc, htgt, hdup,
        Bool.not_true, Bool.false_eq_true, if_false]
      exact hrun
    · rw [hc, hd1]
      simp
    · rw [hn]
    · rw [hi]
    · rw [hnm]
    · rw [hcl]

theorem addConnsFromData_shape (t : Nat) :
    ∀ (cds : List ConnData) (d d' : Diagram),
      addConnsFromData d t cds = .ok d' →
      d'.connections = d.connections ++ cds.map connOf ∧
      d'.nodes = d.nodes ∧ d'.id = d.id ∧ d'.name = d.name ∧
      d'.clusters = d.clusters ∧
      (∀ cd ∈ cds, connOk cd) ∧
      (∀ cd ∈ cds, d.nodes.any (fun n => n.id = pyStrip cd.source) = true ∧
        d.nodes.any (fun n => n.id = pyStrip cd.target) = true) ∧
      ((d.connections.map connPair).Nodup → (d'.connections.map connPair).Nodup) := by
  intro cds
  induction cds with
  | nil =>
    intro d d' h
    have : d = d' := by simpa [addConnsFromData] using h
    subst this
    exact ⟨by simp, rfl, rfl, rfl, rfl, by simp, by simp, fun h => h⟩
  | cons cd rest ih =>
    intro d d' h
    simp only [addConnsFromData] at h
    cases hconn : mkDiagramConnection cd.source cd.target cd.label with
    | error e => simp [hconn] at h
    | ok c =>
      simp only [hconn] at h
      -- identify the constructed connection
      have hs : pyStrip cd.source ≠ "" := by
        intro hcontra
        simp [mkDiagramConnection, hcontra] at hconn
      have ht : pyStrip cd.target ≠ "" := by
        intro hcontra
        simp [mkDiagramConnection, hs, hcontra] at hconn
      have hc' : c = connOf cd := by
        rw [mkDiagramConnection_ok cd ⟨hs, ht⟩] at hconn
        cases hconn
        rfl
      subst hc'
      -- the three aggregate checks must have passed
      cases hsrc : d.nodes.any (fun n => n.id = (connOf cd).source) with
      | false => simp [add_connection, hsrc] at h
      | true =>
        cases htgt : d.nodes.any (fun n => n.id = (connOf cd).target) with
        | false => simp [add_connection, hsrc, htgt] at h
        | true =>
          cases hdup : d.connections.any
              (fun c0 => c0.source = (connOf cd).source ∧
                c0.target = (connOf cd).target) with
          | true =>
            simp only [add_connection, hsrc, htgt, hdup] at h
            simp at h
          | false =>
            simp only [add_connection, hsrc, htgt, hdup, Bool.not_true,
              Bool.false_eq_true, if_false] at h
            obtain ⟨hc, hn, hi, hnm, hcl, hok, hends, hnodup⟩ :=
              ih { d with connections := d.connections ++ [connOf cd], updated_at := t } d' h
            refine ⟨?_, hn, hi, hnm, hcl, ?_, ?_, ?_⟩
            · rw [hc]; simp
            · intro x hx
              simp only [List.mem_cons] at hx
              rcases hx with hx | hx
              · subst hx; exact ⟨hs, ht⟩
              · exact hok x hx
            · intro x hx
              simp only [List.mem_cons] at hx
              rcases hx with hx | hx
              · subst hx; exact ⟨hsrc, htgt⟩
              · exact hends x hx
            · intro hd
              apply hnodup
              simp only [List.map_append, List.map_cons, List.map_nil]
              rw [List.nodup_append]
              refine ⟨hd, by simp, ?_⟩
              intro a ha
              simp only [List.mem_singleton]
              intro hb
              subst hb
              simp only [List.mem_map] at ha
              obtain ⟨c0, hc0, hc0a⟩ := ha
              have := List.any_eq_false.mp hdup c0 hc0
              simp only [decide_eq_true_eq, not_and] at this
              simp only [connPair, Prod.mk.injEq] at hc0a
              exact this hc0a.1 hc0a.2

theorem any_id_iff_mem_map (nodes : List DiagramNode) (s : String) :
    (nodes.any (fun n => n.id = s)) = true ↔ s ∈ nodes.map DiagramNode.id := by
  simp only [List.any_eq_true, List.mem_map, decide_eq_true_eq]

theorem mkDiagramName_ok (v : String) (h1 : 1 ≤ v.length) (h2 : v.length ≤ 100)
    (h3 : pyStrip v ≠ "") : mkDiagramName v = .ok (pyStrip v) := by
  have hlen : ¬ (v.length < 1 ∨ 100 < v.length) := by omega
  simp only [mkDiagramName, if_neg hlen, if_neg h3]

theorem create_diagram_ok (did : String) (now : Nat) (name : String)
    (nds : List NodeData) (cds : List ConnData) (cls : List ClusterData)
    (hname1 : 1 ≤ name.length) (hname2 : name.length ≤ 100)
    (hname3 : pyStrip name ≠ "")
    (hok : ∀ nd ∈ nds, nodeOk nd)
    (hids : (nds.map NodeData.id).Nodup)
    (hcok : ∀ cd ∈ cds, connOk cd)
    (hends : ∀ cd ∈ cds, pyStrip cd.source ∈ nds.map NodeData.id ∧
      pyStrip cd.target ∈ nds.map NodeData.id)
    (hpairs : (cds.map (fun cd => (pyStrip cd.source, pyStrip cd.target))).Nodup) :
    ∃ d, create_diagram_from_specification did now name nds cds cls = .ok d ∧
      d.nodes = nds.map nodeOf ∧ d.connections = cds.map connOf ∧
      d.id = did ∧ d.name = pyStrip name ∧ d.clusters = cls := by
  have hmk := mkDiagramName_ok name hname1 hname2 hname3
  set d0 : Diagram :=
    { id := did, name := pyStrip name, nodes := [], connections := [],
      clusters := cls, created_at := now, updated_at := now } with hd0
  obtain ⟨d1, hrun1, hn1, hc1, hi1, hnm1, hcl1⟩ :=
    addNodesFromData_ok now nds d0 hok (by intro nd _ m hm; simp [hd0] at hm) hids
  have hn1' : d1.nodes = nds.map nodeOf := by rw [hn1, hd0]; simp
  have hc1' : d1.connections = [] := by rw [hc1, hd0]
  have hmem : ∀ (s : String), s ∈ nds.map NodeData.id →
      (d1.nodes.any (fun n => n.id = s)) = true := by
    intro s hs
    rw [any_id_iff_mem_map, hn1']
    simp only [List.mem_map] at hs ⊢
    obtain ⟨nd, hnd, hid⟩ := hs
    exact ⟨nodeOf nd, ⟨nd, hnd, rfl⟩, hid⟩
  obtain ⟨d2, hrun2, hc2, hn2, hi2, hnm2, hcl2⟩ :=
    addConnsFromData_ok now cds d1
      hcok
      (fun cd hcd => ⟨hmem _ (hends cd hcd).1, hmem _ (hends cd hcd).2⟩)
      (by intro cd _ c0 hc0; rw [hc1'] at hc0; simp at hc0)
      hpairs
  refine ⟨d2, ?_, ?_, ?_, ?_, ?_, ?_⟩
  · simp only [create_diagram_from_specification, hmk]
    rw [← hd0]
    simp only [hrun1]
    exact hrun2
  · rw [hn2, hn1']
  · rw [hc2, hc1']
    simp
  · rw [hi2, hi1, hd0]
  · rw [hnm2, hnm1, hd0]
  · rw [hcl2, hcl1, hd0]

theorem create_diagram_shape (did : String) (now : Nat) (name : String)
    (nds : List NodeData) (cds : List ConnData) (cls : List ClusterData)
    (d : Diagram)
    (h : create_diagram_from_specification did now name nds cds cls = .ok d) :
    d.nodes = nds.map nodeOf ∧ d.connections = cds.map connOf ∧
    d.id = did ∧ d.name = pyStrip name ∧ d.clusters = cls ∧
    1 ≤ name.length ∧ name.length ≤ 100 ∧ pyStrip name ≠ "" ∧
    (∀ nd ∈ nds, nodeOk nd) ∧ (∀ cd ∈ cds, connOk cd) ∧
    (d.nodes.map DiagramNode.id).Nodup ∧
    (d.connections.map connPair).Nodup ∧
    (∀ cd ∈ cds, d.nodes.any (fun n => n.id = pyStrip cd.source) = true ∧
      d.nodes.any (fun n => n.id = pyStrip cd.target) = true) := by
  simp only [create_diagram_from_specification] at h
  cases hmk : mkDiagramName name with
  | error e => simp [hmk] at h
  | ok nm =>
    simp only [hmk] at h
    have hname1 : ¬ (name.length < 1 ∨ 100 < name.length) := by
      intro hcontra
      simp only [mkDiagramName, if_pos hcontra] at hmk
      cases hmk
    have hname3 : pyStrip name ≠ "" := by
      intro hcontra
      simp only [mkDiagramName, hcontra] at hmk
      split at hmk <;> simp at hmk
    have hnm : nm = pyStrip name := by
      rw [mkDiagramName_ok name (by omega) (by omega) hname3] at hmk
      cases hmk
      rfl
    subst hnm
    set d0 : Diagram :=
      { id := did, name := pyStrip name, nodes := [], connections := [],
        clusters := cls, created_at := now, updated_at := now } with hd0
    cases hrun1 : addNodesFromData d0 now nds with
    | error e => rw [hrun1] at h; simp at h
    | ok d1 =>
      rw [hrun1] at h
      simp only [] at h
      obtain ⟨hn1, hc1, hi1, hnm1, hcl1, hok1, hnodup1⟩ :=
        addNodesFromData_shape now nds d0 d1 hrun1
      obtain ⟨hc2, hn2, hi2, hnm2, hcl2, hok2, hends2, hnodup2⟩ :=
        addConnsFromData_shape now cds d1 d h
      have hd0nodes : d0.nodes = [] := by rw [hd0]
      have hd0conns : d0.connections = [] := by rw [hd0]
      have hdn : d.nodes = nds.map nodeOf := by
        rw [hn2, hn1, hd0nodes]; simp
      have hdc : d.connections = cds.map connOf := by
        rw [hc2, hc1, hd0conns]; simp
      refine ⟨hdn, hdc, ?_, ?_, ?_, by omega, by omega, hname3, hok1, hok2,
        ?_, ?_, ?_⟩
      · rw [hi2, hi1, hd0]
      · rw [hnm2, hnm1, hd0]
      · rw [hcl2, hcl1, hd0]
      · rw [hn2]
        apply hnodup1
        rw [hd0nodes]
        simp
      · apply hnodup2
        rw [hc1, hd0conns]
        simp
      · intro cd hcd
        rw [hn2]
        exact hends2 cd hcd

theorem roundtrip_node (nd : NodeData) (h : nodeOk nd) :
    nodeOk (serializeNode (nodeOf nd)) ∧
    nodeOf (serializeNode (nodeOf nd)) = nodeOf nd := by
  obtain ⟨h1, h2, h3, h4⟩ := h
  have htype : pyStrip (pyLower (pyStrip nd.type)) = pyLower (pyStrip nd.type) := by
    rw [pyStrip_pyLower, pyStrip_pyStrip]
  have htypene : pyLower (pyStrip nd.type) ≠ "" := by
    intro hcontra
    exact h1 (pyLower_eq_empty_iff (pyStrip nd.type) |>.mp hcontra)
  have hlabel : pyStrip (pyStrip nd.label) = pyStrip nd.label := pyStrip_pyStrip nd.label
  constructor
  · refine ⟨?_, ?_, ?_, ?_⟩
    · show pyStrip (pyLower (pyStrip nd.type)) ≠ ""
      rw [htype]; exact htypene
    · show 1 ≤ (pyStrip nd.label).length
      exact length_pos_of_ne_empty _ h4
    · show (pyStrip nd.label).length ≤ 200
      exact le_trans (length_pyStrip_le nd.label) h3
    · show pyStrip (pyStrip nd.label) ≠ ""
      rw [hlabel]; exact h4
  · show (⟨(nodeOf nd).id, ⟨pyLower (pyStrip (pyLower (pyStrip nd.type)))⟩,
      pyStrip (pyStrip nd.label), (nodeOf nd).cluster⟩ : DiagramNode) = nodeOf nd
    rw [htype, pyLower_pyLower, hlabel]
    rfl

theorem normConnLabel_idem (l : Option String) :
    normConnLabel (normConnLabel l) = normConnLabel l := by
  cases l with
  | none => rfl
  | some s =>
    simp only [normConnLabel]
    by_cases h : pyStrip s = ""
    · simp [h]
    · simp only [if_neg h, normConnLabel, pyStrip_pyStrip, if_neg h]

theorem roundtrip_conn (cd : ConnData) (h : connOk cd) :
    connOk (serializeConn (connOf cd)) ∧
    connOf (serializeConn (connOf cd)) = connOf cd := by
  obtain ⟨h1, h2⟩ := h
  constructor
  · refine ⟨?_, ?_⟩
    · show pyStrip (pyStrip cd.source) ≠ ""
      rw [pyStrip_pyStrip]; exact h1
    · show pyStrip (pyStrip cd.target) ≠ ""
      rw [pyStrip_pyStrip]; exact h2
  · show (⟨pyStrip (pyStrip cd.source), pyStrip (pyStrip cd.target),
      normConnLabel (normConnLabel cd.label)⟩ : DiagramConnection) = connOf cd
    rw [pyStrip_pyStrip, pyStrip_pyStrip, normConnLabel_idem]
    rfl

theorem add_node_preserves_inv (d : Diagram) (n : DiagramNode) (t : Nat)
    (h : diagramInv d) : diagramInv (add_node d n t).1 := by
  obtain ⟨h1, h2, h3⟩ := h
  cases hany : d.nodes.any (fun m => m.id = n.id) with
  | true => simpa [add_node, hany] using ⟨h1, h2, h3⟩
  | false =>
    simp only [add_node, hany, Bool.false_eq_true, if_false]
    refine ⟨?_, ?_, h3⟩
    · simp only [List.map_append, List.map_cons, List.map_nil]
      rw [List.nodup_append]
      refine ⟨h1, by simp, ?_⟩
      intro a ha
      simp only [List.mem_singleton]
      intro hb
      subst hb
      simp only [List.mem_map] at ha
      obtain ⟨m, hm, hma⟩ := ha
      have := List.any_eq_false.mp hany m hm
      simp only [decide_eq_true_eq] at this
      exact this hma
    · intro c hc
      have := h2 c hc
      constructor
      · simp only [List.map_append]
        exact List.mem_append_left _ this.1
      · simp only [List.map_append]
        exact List.mem_append_left _ this.2

theorem add_connection_preserves_inv (d : Diagram) (c : DiagramConnection)
    (t : Nat) (h : diagramInv d) : diagramInv (add_connection d c t).1 := by
  obtain ⟨h1, h2, h3⟩ := h
  cases hs : d.nodes.any (fun n => n.id = c.source) with
  | false =>
    unfold add_connection
    rw [hs]
    simpa using ⟨h1, h2, h3⟩
  | true =>
    cases ht : d.nodes.any (fun n => n.id = c.target) with
    | false =>
      unfold add_connection
      rw [hs, ht]
      simpa using ⟨h1, h2, h3⟩
    | true =>
      cases hdup : d.connections.any
          (fun c0 => c0.source = c.source ∧ c0.target = c.target) with
      | true =>
        unfold add_connection
        rw [hs, ht, hdup]
        simpa using ⟨h1, h2, h3⟩
      | false =>
        unfold add_connection
        rw [hs, ht, hdup]
        simp only [not_true, Bool.false_eq_true, if_false, eq_self_iff_true]
        refine ⟨h1, ?_, ?_⟩
        · intro c0 hc0
          simp only [List.mem_append, List.mem_singleton] at hc0
          rcases hc0 with hc0 | hc0
          · exact h2 c0 hc0
          · rw [hc0]
            exact ⟨(any_id_iff_mem_map d.nodes c.source).mp hs,
              (any_id_iff_mem_map d.nodes c.target).mp ht⟩
        · simp only [List.map_append, List.map_cons, List.map_nil]
          rw [List.nodup_append]
          refine ⟨h3, by simp, ?_⟩
          intro a ha
          simp only [List.mem_singleton]
          intro hb
          subst hb
          simp only [List.mem_map] at ha
          obtain ⟨c0, hc0, hc0a⟩ := ha
          have := List.any_eq_false.mp hdup c0 hc0
          simp only [decide_eq_true_eq, not_and] at this
          simp only [connPair, Prod.mk.injEq] at hc0a
          exact this hc0a.1 hc0a.2

theorem runOps_preserves_inv : ∀ (ops : List DiagramOp) (d : Diagram),
    diagramInv d → diagramInv (runOps d ops) := by
  intro ops
  induction ops with
  | nil => intro d h; exact h
  | cons op rest ih =>
    intro d h
    show diagramInv (runOps (applyOp d op).1 rest)
    apply ih
    cases op with
    | addN n now => exact add_node_preserves_inv d n now h
    | addC c now => exact add_connection_preserves_inv d c now h

theorem add_connection_dup_fails (d : Diagram) (c : DiagramConnection) (t : Nat)
    (hdup : ∃ c0 ∈ d.connections, c0.source = c.source ∧ c0.target = c.target) :
    (add_connection d c t).2.isSome = true := by
  cases hs : d.nodes.any (fun n => n.id = c.source) with
  | false =>
    unfold add_connection
    rw [hs]
    simp
  | true =>
    cases ht : d.nodes.any (fun n => n.id = c.target) with
    | false =>
      unfold add_connection
      rw [hs, ht]
      simp
    | true =>
      have hany : d.connections.any
          (fun c0 => c0.source = c.source ∧ c0.target = c.target) = true := by
        rw [List.any_eq_true]
        obtain ⟨c0, hc0, he⟩ := hdup
        exact ⟨c0, hc0, by simp [he.1, he.2]⟩
      unfold add_connection
      rw [hs, ht, hany]
      simp

/-!
Claim theorems.
-/

/-- Claim C5: for every specification containing a connection whose source or
target is not among the declared node ids, the specification builder rejects
it — `validate_diagram_specification` returns false and the `create_diagram`
entry point fails with "Invalid diagram specification" — regardless of the
other nodes and connections. -/
theorem C5_dangling_connection_rejected (did : String) (now : Nat)
    (cmd : CreateDiagramCommand) (cd : ConnData)
    (hmem : cd ∈ cmd.connections)
    (hdangling : cd.source ∉ cmd.nodes.map NodeData.id ∨
      cd.target ∉ cmd.nodes.map NodeData.id) :
    validate_diagram_specification cmd.nodes cmd.connections = false ∧
    create_diagram did now cmd = .error "Invalid diagram specification" := by
  have hval : validate_diagram_specification cmd.nodes cmd.connections = false := by
    unfold validate_diagram_specification
    by_cases hemp : cmd.nodes.isEmpty
    · simp [hemp]
    · simp [hemp]
      intro hlen
      refine ⟨cd, hmem, ?_⟩
      intro x1 hx1 he1 x2 hx2 he2
      rcases hdangling with h | h
      · exact h (he1 ▸ List.mem_map_of_mem NodeData.id hx1)
      · exact h (he2 ▸ List.mem_map_of_mem NodeData.id hx2)
  refine ⟨hval, ?_⟩
  unfold create_diagram
  rw [hval]
  simp

/-- Claim C5 witness at a concrete input: one node `a`, one connection whose
target `x` is undeclared. -/
theorem C5_witness :
    validate_diagram_specification [⟨"a", "t", "A", none⟩] [⟨"a", "x", none⟩]
      = false ∧
    create_diagram "u" 0
      ⟨"D", [⟨"a", "t", "A", none⟩], [⟨"a", "x", none⟩], []⟩
      = .error "Invalid diagram specification" :=
  C5_dangling_connection_rejected "u" 0
    ⟨"D", [⟨"a", "t", "A", none⟩], [⟨"a", "x", none⟩], []⟩
    ⟨"a", "x", none⟩ (by decide) (by decide)

/-- Claim C6: for every node list in which two nodes share the same id, the
specification builder rejects the specification, regardless of the connection
content. -/
theorem C6_duplicate_node_id_rejected (did : String) (now : Nat)
    (cmd : CreateDiagramCommand)
    (hdup : ¬ (cmd.nodes.map NodeData.id).Nodup) :
    validate_diagram_specification cmd.nodes cmd.connections = false ∧
    create_diagram did now cmd = .error "Invalid diagram specification" := by
  have hlen : (cmd.nodes.map NodeData.id).length
      ≠ (cmd.nodes.map NodeData.id).dedup.length := by
    intro hcontra
    apply hdup
    rw [← List.dedup_eq_self]
    exact (List.dedup_sublist _).eq_of_length hcontra.symm
  have hval : validate_diagram_specification cmd.nodes cmd.connections = false := by
    unfold validate_diagram_specification
    by_cases hemp : cmd.nodes.isEmpty
    · simp [hemp]
    · simp [hemp]
      intro hcontra
      exact absurd hcontra (by simpa using hlen)
  refine ⟨hval, ?_⟩
  unfold create_diagram
  rw [hval]
  simp

/-- Claim C6 witness at a concrete input: two nodes that share the id `a`. -/
theorem C6_witness :
    validate_diagram_specification
      [⟨"a", "t", "A", none⟩, ⟨"a", "t2", "B", none⟩] [] = false ∧
    create_diagram "u" 0
      ⟨"D", [⟨"a", "t", "A", none⟩, ⟨"a", "t2", "B", none⟩], [], []⟩
      = .error "Invalid diagram specification" :=
  C6_duplicate_node_id_rejected "u" 0
    ⟨"D", [⟨"a", "t", "A", none⟩, ⟨"a", "t2", "B", none⟩], [], []⟩ (by decide)

/-- Claim C2 counterexample: the empty-nodes rejection does NOT apply
identically on both entry paths.  The direct-submission path
(`create_diagram`) rejects an empty nodes list, but the model-reply path
(pydantic validation of `DiagramRequest`) accepts the parsed reply
`{"name": "X", "nodes": [], "connections": []}` without any
`InvalidSpecification` rejection. -/
theorem C2_counterexample :
    create_diagram "u" 0 ⟨"X", [], [], []⟩
      = .error "Invalid diagram specification" ∧
    (mkDiagramRequest (.obj [("name", .str "X"), ("nodes", .arr []),
      ("connections", .arr [])])).isOk = true :=
  ⟨rfl, rfl⟩

/-- Claim C2 amended: for every specification whose nodes list is empty, the
direct-submission entry path fails with `InvalidSpecification` ("Invalid
diagram specification"); the model-reply entry path applies no such rule —
a parsed reply with an empty nodes list is accepted by the `DiagramRequest`
validation. -/
theorem C2_empty_nodes_rejected_on_direct_path_only (did : String) (now : Nat)
    (name : String) (cds : List ConnData) (cls : List ClusterData)
    (nm : String) :
    validate_diagram_specification [] cds = false ∧
    create_diagram did now ⟨name, [], cds, cls⟩
      = .error "Invalid diagram specification" ∧
    (mkDiagramRequest (.obj [("name", .str nm), ("nodes", .arr []),
      ("connections", .arr [])])).isOk = true :=
  ⟨rfl, rfl, rfl⟩

/-- Claim C10: whenever `add_node` or `add_connection` fails, the diagram is
left exactly as it was before the call — nodes, connections and `updated_at`
all unchanged (the whole aggregate record is unchanged). -/
theorem C10_failed_add_leaves_diagram_unchanged (d : Diagram)
    (n : DiagramNode) (c : DiagramConnection) (t1 t2 : Nat) :
    ((add_node d n t1).2.isSome = true → (add_node d n t1).1 = d) ∧
    ((add_connection d c t2).2.isSome = true → (add_connection d c t2).1 = d) := by
  constructor
  · intro h
    cases hany : d.nodes.any (fun m => m.id = n.id) with
    | true =>
      unfold add_node
      rw [hany]
      simp
    | false =>
      exfalso
      unfold add_node at h
      rw [hany] at h
      simp at h
  · intro h
    cases hs : d.nodes.any (fun m => m.id = c.source) with
    | false =>
      unfold add_connection
      rw [hs]
      simp
    | true =>
      cases ht : d.nodes.any (fun m => m.id = c.target) with
      | false =>
        unfold add_connection
        rw [hs, ht]
        simp
      | true =>
        cases hdup : d.connections.any
            (fun c0 => c0.source = c.source ∧ c0.target = c.target) with
        | true =>
          unfold add_connection
          rw [hs, ht, hdup]
          simp
        | false =>
          exfalso
          unfold add_connection at h
          rw [hs, ht, hdup] at h
          simp at h

/-- Claim C10 witness at a concrete input: adding a node with a duplicate id
and a connection with a missing source both leave the aggregate unchanged. -/
theorem C10_witness :
    (add_node
      { id := "u", name := "N", nodes := [⟨"a", ⟨"t"⟩, "A", none⟩],
        connections := [], clusters := [], created_at := 0, updated_at := 0 }
      ⟨"a", ⟨"t2"⟩, "B", none⟩ 5).1 =
      { id := "u", name := "N", nodes := [⟨"a", ⟨"t"⟩, "A", none⟩],
        connections := [], clusters := [], created_at := 0, updated_at := 0 } ∧
    (add_connection
      { id := "u", name := "N", nodes := [⟨"a", ⟨"t"⟩, "A", none⟩],
        connections := [], clusters := [], created_at := 0, updated_at := 0 }
      ⟨"x", "a", none⟩ 6).1 =
      { id := "u", name := "N", nodes := [⟨"a", ⟨"t"⟩, "A", none⟩],
        connections := [], clusters := [], created_at := 0, updated_at := 0 } :=
  ⟨(C10_failed_add_leaves_diagram_unchanged
      { id := "u", name := "N", nodes := [⟨"a", ⟨"t"⟩, "A", none⟩],
        connections := [], clusters := [], created_at := 0, updated_at := 0 }
      ⟨"a", ⟨"t2"⟩, "B", none⟩ ⟨"x", "a", none⟩ 5 6).1 (by decide),
   (C10_failed_add_leaves_diagram_unchanged
      { id := "u", name := "N", nodes := [⟨"a", ⟨"t"⟩, "A", none⟩],
        connections := [], clusters := [], created_at := 0, updated_at := 0 }
      ⟨"a", ⟨"t2"⟩, "B", none⟩ ⟨"x", "a", none⟩ 5 6).2 (by decide)⟩

/-- Claim C9: starting from a diagram with no nodes and no connections, every
sequence of `add_node`/`add_connection` operations (failed calls leaving the
state unchanged) preserves the invariant: node ids pairwise distinct, every
connection's endpoints in the node-id set, no two connections with the same
(source, target) pair; and adding a connection whose (source, target) pair
already occurs always fails. -/
theorem C9_invariant_preserved (d : Diagram) (ops : List DiagramOp)
    (hn : d.nodes = []) (hc : d.connections = [])
    (c : DiagramConnection) (t : Nat) :
    diagramInv (runOps d ops) ∧
    ((∃ c0 ∈ (runOps d ops).connections,
        c0.source = c.source ∧ c0.target = c.target) →
      (add_connection (runOps d ops) c t).2.isSome = true) := by
  refine ⟨?_, add_connection_dup_fails _ c t⟩
  apply runOps_preserves_inv
  refine ⟨?_, ?_, ?_⟩
  · rw [hn]; simp
  · intro c0 hc0
    rw [hc] at hc0
    simp at hc0
  · rw [hc]; simp

/-- Claim C9 witness at a concrete input: two nodes and one connection added
from the empty diagram satisfy the invariant, and re-adding the same
(source, target) pair fails. -/
theorem C9_witness :
    diagramInv (runOps
      { id := "u", name := "N", nodes := [], connections := [], clusters := [],
        created_at := 0, updated_at := 0 }
      [.addN ⟨"a", ⟨"t"⟩, "A", none⟩ 1, .addN ⟨"b", ⟨"t"⟩, "B", none⟩ 1,
        .addC ⟨"a", "b", none⟩ 2]) ∧
    (add_connection (runOps
      { id := "u", name := "N", nodes := [], connections := [], clusters := [],
        created_at := 0, updated_at := 0 }
      [.addN ⟨"a", ⟨"t"⟩, "A", none⟩ 1, .addN ⟨"b", ⟨"t"⟩, "B", none⟩ 1,
        .addC ⟨"a", "b", none⟩ 2]) ⟨"a", "b", some "again"⟩ 3).2.isSome
      = true := by
  have h := C9_invariant_preserved
    { id := "u", name := "N", nodes := [], connections := [], clusters := [],
      created_at := 0, updated_at := 0 }
    [.addN ⟨"a", ⟨"t"⟩, "A", none⟩ 1, .addN ⟨"b", ⟨"t"⟩, "B", none⟩ 1,
      .addC ⟨"a", "b", none⟩ 2] rfl rfl ⟨"a", "b", some "again"⟩ 3
  exact ⟨h.1, h.2 (by decide)⟩

theorem firstIdx?_eq_none_iff (l : List Char) (c : Char) :
    firstIdx? l c = none ↔ c ∉ l := by
  induction l with
  | nil => simp [firstIdx?]
  | cons a as ih =>
    by_cases h : a = c
    · simp [firstIdx?, h]
    · simp only [firstIdx?, if_neg h, Option.map_eq_none', ih, List.mem_cons,
        not_or]
      constructor
      · intro h1
        exact ⟨fun hc => h hc.symm, h1⟩
      · intro h1
        exact h1.2

/-- Claim C3: the JSON extraction of the LLM gateway returns exactly the
substring from the first opening brace to the last closing brace inclusive;
on the spec's concrete example it yields the expected JSON span, and on any
input containing no opening brace it fails (the
"No valid JSON found in response" error, surfaced as
`MalformedModelOutput`). -/
theorem C3_json_extraction :
    extract_json "Sure! \x7b\"name\":\"X\",\"nodes\":[],\"connections\":[]\x7d Thanks."
      = .ok "\x7b\"name\":\"X\",\"nodes\":[],\"connections\":[]\x7d" ∧
    (∀ t : String, '\x7b' ∉ t.data →
      extract_json t = .error "No valid JSON found in response") ∧
    (∀ (t : String) (i j : Nat), firstIdx? t.data '\x7b' = some i →
      lastIdx? t.data '\x7d' = some j →
      extract_json t = .ok (pySlice t i (j + 1))) := by
  refine ⟨rfl, ?_, ?_⟩
  · intro t hmem
    have h1 : firstIdx? t.data '\x7b' = none :=
      (firstIdx?_eq_none_iff t.data '\x7b').mpr hmem
    unfold extract_json pyFind
    rw [h1]
    simp
  · intro t i j hi hj
    unfold extract_json pyFind pyRfind
    rw [hi, hj]
    have hcond : ¬ (((i : Nat) : Int) = -1 ∨ ((j : Nat) : Int) + 1 = 0) := by
      omega
    rw [if_neg hcond]
    have h2 : (((i : Nat) : Int)).toNat = i := by omega
    have h3 : (((j : Nat) : Int) + 1).toNat = j + 1 := by omega
    rw [h2, h3]

/-- Claim C3 witness at concrete inputs: a brace-free reply fails, and a
reply with braces at positions 2 and 5 yields the slice `[2:6]`. -/
theorem C3_witness :
    extract_json "no json here" = .error "No valid JSON found in response" ∧
    extract_json "ab\x7bcd\x7def" = .ok (pySlice "ab\x7bcd\x7def" 2 6) :=
  ⟨C3_json_extraction.2.1 "no json here" (by decide),
   C3_json_extraction.2.2 "ab\x7bcd\x7def" 2 5 (by decide) (by decide)⟩

/-- Claim C7 counterexample: the model's reply is not returned unmodified —
`assistant_chat` returns `str(response.text.strip())`, so surrounding
whitespace is removed from the reply. -/
theorem C7_counterexample :
    assistant_chat (fun _ => " hello ") "hi" [] = "hello" ∧
    assistant_chat (fun _ => " hello ") "hi" [] ≠ " hello " := by
  exact ⟨by decide, by decide⟩

/-- Claim C7 amended: the chat entry point classifies the message by
case-insensitive substring containment against the fixed keyword list
(diagram, create, generate, show, draw, build, architecture); if any keyword
occurs in the lower-cased message the generation prompt is used, otherwise
the assistant prompt; and the model's reply is returned stripped of
surrounding whitespace (otherwise unmodified). -/
theorem C7_chat_classification (send : Prompt → String) (user_message : String)
    (supported : List String) :
    is_diagram_request user_message
      = diagram_keywords.any (fun k => caseInsensitiveContains user_message k) ∧
    assistant_chat send user_message supported
      = pyStrip (send (if is_diagram_request user_message then
          build_diagram_generation_prompt user_message supported
          else build_assistant_prompt user_message supported)) := by
  constructor
  · have hfix : ∀ k ∈ diagram_keywords, pyLower k = k := by decide
    unfold is_diagram_request caseInsensitiveContains
    have hcongr : ∀ (l : List String), (∀ k ∈ l, pyLower k = k) →
        l.any (fun k => containsSub (pyLower user_message) k) =
        l.any (fun k => containsSub (pyLower user_message) (pyLower k)) := by
      intro l hl
      induction l with
      | nil => rfl
      | cons a as ih =>
        simp only [List.any_cons, hl a (by simp)]
        rw [ih (fun k hk => hl k (by simp [hk]))]
    exact hcongr diagram_keywords hfix
  · rfl

theorem contains_of_mem (l : List String) (a : String) (h : a ∈ l) :
    l.contains a = true := by
  simpa using h

/-- Claim C1 counterexample: a node/connection list that is well-formed in the
spec's sense (non-empty nodes, unique ids, endpoints among declared ids) on
which `create_diagram_from_specification` nevertheless fails, because the
list contains a duplicate (source, target) connection and `add_connection`
rejects duplicates. -/
theorem C1_counterexample :
    specWellFormed
      [⟨"a", "aws_ec2", "Web", none⟩, ⟨"b", "aws_rds", "DB", none⟩]
      [⟨"a", "b", none⟩, ⟨"a", "b", some "again"⟩] ∧
    (create_diagram_from_specification "u" 0 "D"
      [⟨"a", "aws_ec2", "Web", none⟩, ⟨"b", "aws_rds", "DB", none⟩]
      [⟨"a", "b", none⟩, ⟨"a", "b", some "again"⟩] []).isOk = false := by
  constructor
  · refine ⟨by decide, by decide, by decide⟩
  · decide

/-- Claim C1 amended: for every node/connection list that is well-formed in
the spec's sense AND whose node labels and types are non-blank (labels of
1–200 characters), whose connection endpoints are non-blank and already
stripped, and which contains no duplicate (source, target) connection pair,
`create_diagram_from_specification` (given a valid name) succeeds and the
resulting diagram satisfies `is_valid`. -/
theorem C1_wellformed_spec_builds_valid_diagram (did : String) (now : Nat)
    (name : String) (nds : List NodeData) (cds : List ConnData)
    (cls : List ClusterData)
    (hname1 : 1 ≤ name.length) (hname2 : name.length ≤ 100)
    (hname3 : pyStrip name ≠ "")
    (hne : nds ≠ [])
    (hids : (nds.map NodeData.id).Nodup)
    (hnodesOk : ∀ nd ∈ nds, nodeOk nd)
    (hconnsOk : ∀ cd ∈ cds, connOk cd)
    (hends : ∀ cd ∈ cds, pyStrip cd.source ∈ nds.map NodeData.id ∧
      pyStrip cd.target ∈ nds.map NodeData.id)
    (hpairs : (cds.map (fun cd => (pyStrip cd.source, pyStrip cd.target))).Nodup) :
    ∃ d, create_diagram_from_specification did now name nds cds cls = .ok d ∧
      is_valid d = true := by
  obtain ⟨d, hcreate, hn, hc, -, -, -⟩ :=
    create_diagram_ok did now name nds cds cls hname1 hname2 hname3 hnodesOk
      hids hconnsOk hends hpairs
  refine ⟨d, hcreate, ?_⟩
  unfold is_valid
  have hne2 : d.nodes.isEmpty = false := by
    rw [hn]
    cases nds with
    | nil => exact absurd rfl hne
    | cons a as => rfl
  rw [hne2]
  simp only [Bool.false_eq_true, if_false]
  apply List.all_eq_true.mpr
  intro c hc2
  rw [hc] at hc2
  simp only [List.mem_map] at hc2
  obtain ⟨cd, hcd, hceq⟩ := hc2
  have hidseq : d.nodes.map (fun n => n.id) = nds.map NodeData.id := by
    rw [hn, List.map_map]
    rfl
  have he := hends cd hcd
  have hsrc : c.source = pyStrip cd.source := by rw [← hceq]; rfl
  have htgt : c.target = pyStrip cd.target := by rw [← hceq]; rfl
  simp only [Bool.and_eq_true]
  constructor
  · rw [hidseq, hsrc]
    exact contains_of_mem _ _ he.1
  · rw [hidseq, htgt]
    exact contains_of_mem _ _ he.2

/-- Claim C1 witness at a concrete input: two nodes `a`, `b` and the single
connection `a -> b` build successfully into a valid diagram. -/
theorem C1_witness :
    ∃ d, create_diagram_from_specification "u" 0 "D"
      [⟨"a", "aws_ec2", "Web", none⟩, ⟨"b", "aws_rds", "DB", none⟩]
      [⟨"a", "b", none⟩] [] = .ok d ∧ is_valid d = true :=
  C1_wellformed_spec_builds_valid_diagram "u" 0 "D"
    [⟨"a", "aws_ec2", "Web", none⟩, ⟨"b", "aws_rds", "DB", none⟩]
    [⟨"a", "b", none⟩] [] (by decide) (by decide) (by decide) (by decide)
    (by decide) (by decide) (by decide) (by decide) (by decide)

/-- Claim C4: when the rendering service raises during
`generate_diagram_from_description`, the response still has `success = true`,
a non-empty specification (the chosen hard-coded specification), and an
empty image path. -/
theorem C4_render_failure_degrades (render : RawSpec → Except String String)
    (did : String) (now : Nat) (description : String) (err : String)
    (hfail : render (chooseSpec description) = .error err) :
    (generate_diagram_from_description (some render) did now description).success
      = true ∧
    (generate_diagram_from_description (some render) did now description).image_path
      = "" ∧
    (generate_diagram_from_description (some render) did now description).specification
      = some (chooseSpec description) := by
  have hcreate : ∃ d, create_diagram_from_specification did now
      (chooseSpec description).name (chooseSpec description).nodes
      (chooseSpec description).connections [] = .ok d := by
    unfold chooseSpec
    by_cases hb1 : (containsSub (pyLower description) "ec2"
        && containsSub (pyLower description) "rds") = true
    · rw [if_pos hb1]
      obtain ⟨d, hd, -, -, -, -, -⟩ :=
        create_diagram_ok did now ec2RdsSpec.name ec2RdsSpec.nodes
          ec2RdsSpec.connections [] (by decide) (by decide) (by decide)
          (by decide) (by decide) (by decide) (by decide) (by decide)
      exact ⟨d, hd⟩
    · rw [if_neg hb1]
      by_cases hb2 : (containsSub (pyLower description) "fastapi"
          && containsSub (pyLower description) "sqs") = true
      · rw [if_pos hb2]
        obtain ⟨d, hd, -, -, -, -, -⟩ :=
          create_diagram_ok did now fastapiSqsSpec.name fastapiSqsSpec.nodes
            fastapiSqsSpec.connections [] (by decide) (by decide) (by decide)
            (by decide) (by decide) (by decide) (by decide) (by decide)
        exact ⟨d, hd⟩
      · rw [if_neg hb2]
        obtain ⟨d, hd, -, -, -, -, -⟩ :=
          create_diagram_ok did now defaultSpec.name defaultSpec.nodes
            defaultSpec.connections [] (by decide) (by decide) (by decide)
            (by decide) (by decide) (by decide) (by decide) (by decide)
        exact ⟨d, hd⟩
  obtain ⟨d, hd⟩ := hcreate
  simp only [generate_diagram_from_description]
  rw [hd, hfail]
  exact ⟨rfl, rfl, rfl⟩

/-- Claim C4 witness at a concrete input: an always-failing renderer still
produces a successful response with the default specification and an empty
image path. -/
theorem C4_witness :
    (generate_diagram_from_description (some (fun _ => .error "boom"))
      "u" 0 "draw me a thing").success = true ∧
    (generate_diagram_from_description (some (fun _ => .error "boom"))
      "u" 0 "draw me a thing").image_path = "" ∧
    (generate_diagram_from_description (some (fun _ => .error "boom"))
      "u" 0 "draw me a thing").specification
      = some (chooseSpec "draw me a thing") :=
  C4_render_failure_degrades (fun _ => .error "boom") "u" 0
    "draw me a thing" "boom" rfl

/-- Claim C8: for every specification accepted by the builder, serializing
the built diagram's node and connection data back out (as the read queries
do) and rebuilding a diagram from that data succeeds and yields exactly the
same nodes and connections (same ids, types, labels, clusters, sources,
targets, connection labels), ignoring the fresh diagram id and
timestamps. -/
theorem C8_serialization_roundtrip (did : String) (now : Nat) (name : String)
    (nds : List NodeData) (cds : List ConnData) (cls : List ClusterData)
    (d : Diagram)
    (h : create_diagram_from_specification did now name nds cds cls = .ok d)
    (did2 : String) (now2 : Nat) (cls2 : List ClusterData) :
    ∃ d2, create_diagram_from_specification did2 now2 d.name
        (d.nodes.map serializeNode) (d.connections.map serializeConn) cls2
      = .ok d2 ∧ d2.nodes = d.nodes ∧ d2.connections = d.connections := by
  obtain ⟨hn, hc, hid, hname, hcls, h1, h2, h3, hok, hcok, hnodup, hpairs, hends⟩ :=
    create_diagram_shape did now name nds cds cls d h
  have hnodefacts : ∀ n ∈ d.nodes, ∃ nd ∈ nds, n = nodeOf nd ∧ nodeOk nd := by
    intro n hmem
    rw [hn] at hmem
    simp only [List.mem_map] at hmem
    obtain ⟨nd, hnd, heq⟩ := hmem
    exact ⟨nd, hnd, heq.symm, hok nd hnd⟩
  have hconnfacts : ∀ c ∈ d.connections, ∃ cd ∈ cds, c = connOf cd ∧ connOk cd := by
    intro c hmem
    rw [hc] at hmem
    simp only [List.mem_map] at hmem
    obtain ⟨cd, hcd, heq⟩ := hmem
    exact ⟨cd, hcd, heq.symm, hcok cd hcd⟩
  have hname1 : 1 ≤ d.name.length := by
    rw [hname]; exact length_pos_of_ne_empty _ h3
  have hname2 : d.name.length ≤ 100 := by
    rw [hname]; exact le_trans (length_pyStrip_le name) h2
  have hname3 : pyStrip d.name ≠ "" := by
    rw [hname, pyStrip_pyStrip]; exact h3
  have hok2 : ∀ x ∈ d.nodes.map serializeNode, nodeOk x := by
    intro x hx
    simp only [List.mem_map] at hx
    obtain ⟨n, hnmem, hxeq⟩ := hx
    obtain ⟨nd, hnd, hneq, hndok⟩ := hnodefacts n hnmem
    rw [← hxeq, hneq]
    exact (roundtrip_node nd hndok).1
  have hidmap : (d.nodes.map serializeNode).map NodeData.id
      = d.nodes.map DiagramNode.id := by
    rw [List.map_map]; rfl
  have hids2 : ((d.nodes.map serializeNode).map NodeData.id).Nodup := by
    rw [hidmap]; exact hnodup
  have hcok2 : ∀ x ∈ d.connections.map serializeConn, connOk x := by
    intro x hx
    simp only [List.mem_map] at hx
    obtain ⟨c, hcmem, hxeq⟩ := hx
    obtain ⟨cd, hcd, hceq, hcdok⟩ := hconnfacts c hcmem
    rw [← hxeq, hceq]
    exact (roundtrip_conn cd hcdok).1
  have hends2 : ∀ x ∈ d.connections.map serializeConn,
      pyStrip x.source ∈ (d.nodes.map serializeNode).map NodeData.id ∧
      pyStrip x.target ∈ (d.nodes.map serializeNode).map NodeData.id := by
    intro x hx
    simp only [List.mem_map] at hx
    obtain ⟨c, hcmem, hxeq⟩ := hx
    obtain ⟨cd, hcd, hceq, -⟩ := hconnfacts c hcmem
    rw [← hxeq, hidmap]
    have he := hends cd hcd
    constructor
    · have hss : pyStrip (serializeConn c).source = pyStrip cd.source := by
        rw [hceq]
        show pyStrip (pyStrip cd.source) = pyStrip cd.source
        exact pyStrip_pyStrip _
      rw [hss]
      exact (any_id_iff_mem_map d.nodes _).mp he.1
    · have hts : pyStrip (serializeConn c).target = pyStrip cd.target := by
        rw [hceq]
        show pyStrip (pyStrip cd.target) = pyStrip cd.target
        exact pyStrip_pyStrip _
      rw [hts]
      exact (any_id_iff_mem_map d.nodes _).mp he.2
  have hpairs2 : ((d.connections.map serializeConn).map
      (fun x => (pyStrip x.source, pyStrip x.target))).Nodup := by
    have hmapeq : (d.connections.map serializeConn).map
        (fun x => (pyStrip x.source, pyStrip x.target))
        = d.connections.map connPair := by
      rw [List.map_map]
      apply List.map_congr_left
      intro c hcmem
      obtain ⟨cd, hcd, hceq, -⟩ := hconnfacts c hcmem
      show (pyStrip (serializeConn c).source, pyStrip (serializeConn c).target)
        = connPair c
      rw [hceq]
      show (pyStrip (pyStrip cd.source), pyStrip (pyStrip cd.target))
        = connPair (connOf cd)
      rw [pyStrip_pyStrip, pyStrip_pyStrip]
      rfl
    rw [hmapeq]
    exact hpairs
  obtain ⟨d2, hd2, hn2, hc2, -, -, -⟩ :=
    create_diagram_ok did2 now2 d.name (d.nodes.map serializeNode)
      (d.connections.map serializeConn) cls2 hname1 hname2 hname3 hok2 hids2
      hcok2 hends2 hpairs2
  refine ⟨d2, hd2, ?_, ?_⟩
  · rw [hn2, List.map_map]
    have hpt : d.nodes.map (nodeOf ∘ serializeNode) = d.nodes.map id := by
      apply List.map_congr_left
      intro n hnmem
      obtain ⟨nd, hnd, hneq, hndok⟩ := hnodefacts n hnmem
      show nodeOf (serializeNode n) = n
      rw [hneq]
      exact (roundtrip_node nd hndok).2
    rw [hpt, List.map_id]
  · rw [hc2, List.map_map]
    have hpt : d.connections.map (connOf ∘ serializeConn)
        = d.connections.map id := by
      apply List.map_congr_left
      intro c hcmem
      obtain ⟨cd, hcd, hceq, hcdok⟩ := hconnfacts c hcmem
      show connOf (serializeConn c) = c
      rw [hceq]
      exact (roundtrip_conn cd hcdok).2
    rw [hpt, List.map_id]

/-- Claim C8 witness at a concrete input: the two-node one-connection diagram
rebuilds to the same nodes and connections from its serialized data. -/
theorem C8_witness :
    ∃ d2, create_diagram_from_specification "v" 1 "D"
        [⟨"a", "aws_ec2", "Web", none⟩, ⟨"b", "aws_rds", "DB", none⟩]
        [⟨"a", "b", none⟩] []
      = .ok d2 ∧
      d2.nodes
        = [⟨"a", ⟨"aws_ec2"⟩, "Web", none⟩, ⟨"b", ⟨"aws_rds"⟩, "DB", none⟩] ∧
      d2.connections = [⟨"a", "b", none⟩] :=
  C8_serialization_roundtrip "u" 0 "D"
    [⟨"a", "aws_ec2", "Web", none⟩, ⟨"b", "aws_rds", "DB", none⟩]
    [⟨"a", "b", none⟩] []
    { id := "u", name := "D",
      nodes := [⟨"a", ⟨"aws_ec2"⟩, "Web", none⟩, ⟨"b", ⟨"aws_rds"⟩, "DB", none⟩],
      connections := [⟨"a", "b", none⟩], clusters := [],
      created_at := 0, updated_at := 0 } (by rfl) "v" 1 []

end DiagramGen
